import Mathlib

/-!
Shallow embedding of `scripts/finam-download.py`.

The script resolves each requested contract code through a lookup service,
plans the start date (reading the last row of an existing local pickle file
in append mode), downloads the series, and persists it, merging with the
local file in binary append mode.  We model the remote services as an
oracle of pure functions, the filesystem as an association list from paths
to datasets, and the observable behaviour of a run as a trace of events
together with the final filesystem and an outcome.
-/

set_option autoImplicit false

namespace FinamDownload

/-- A data row of a time-series dataset: the date column `<DATE>` (encoded
as a number in yyyymmdd form) plus the remaining column values. -/
structure Row where
  date : Nat
  fields : List String
deriving DecidableEq, Repr

/-- A dataset (a pandas DataFrame in the script) is an ordered list of rows. -/
abbrev Dataset := List Row

/-- A resolved contract record, as taken from the first row of the lookup
result (`contracts.reset_index().iloc[0]`). -/
structure Contract where
  id : Nat
  code : String
  market : Nat
deriving DecidableEq, Repr

/-- The local filesystem: a path-to-dataset map, newest binding first. -/
abbrev FS := List (String × Dataset)

/-- Read a file from the filesystem model (`os.path.exists` / `pd.read_pickle`). -/
def lookupFS : FS → String → Option Dataset
  | [], _ => none
  | (p, d) :: rest, q => if p = q then some d else lookupFS rest q

/-- Write a file to the filesystem model (`to_csv` / `to_pickle`). -/
def insertFS (fs : FS) (p : String) (d : Dataset) : FS :=
  (p, d) :: fs

/-- Observable events of a run, in order of occurrence. -/
inductive Event where
  /-- A call to `exporter.lookup`: the code argument (absent for the
  market-wide listing on line 108) and the market filter. -/
  | lookupCall (code : Option String) (market : Option String)
  /-- A call to `exporter.download` with the contract id, the start and end
  dates and the timeframe (lines 152-156). -/
  | exportCall (id : Nat) (startDate : Nat) (endDate : Nat) (timeframe : String)
  /-- A file written at a path with the given dataset content. -/
  | writeFile (path : String) (data : Dataset)
  /-- The append-mode log line `{result_cnt-initial_cnt} records will be
  added to already existing {initial_cnt}` (line 174). -/
  | logAdded (net : Int) (initial : Nat)
  /-- The `logger.error(repr(e))` emitted when a download error is skipped. -/
  | errorLogged
  /-- `time.sleep(delay)` (line 182). -/
  | sleep (seconds : Nat)
deriving DecidableEq, Repr

/-- The terminal state of a run. -/
inductive Outcome where
  /-- The loop finished all contracts. -/
  | finished
  /-- `click.BadParameter` raised during validation (lines 99 and 102). -/
  | badParameter (msg : String)
  /-- `sys.exit(1)` on an unknown contract (line 116). -/
  | exitCode (code : Nat)
  /-- An uncaught `FinamExportError` (line 164, `skiperr` disabled). -/
  | exportFailure
  /-- A pandas error: `df_local.iloc[-1]` on an empty frame (line 142). -/
  | dataFrameError
deriving DecidableEq, Repr

/-- The external services consumed by the script, modelled as pure
functions: `lookupCode c m` is the first row of `exporter.lookup(code=c,
**market_filter)` (`none` models `FinamObjectNotFoundError`);
`marketCodes m` is `exporter.lookup(market=m)['code'].tolist()`;
`download id start end timeframe` is `exporter.download(...)`, with
`Except.error ()` modelling `FinamExportError`. -/
structure Oracle where
  lookupCode : String → Option String → Option Contract
  marketCodes : String → List String
  download : Nat → Nat → Nat → String → Except Unit Dataset

/-- The run configuration assembled by the click options. -/
structure Config where
  contracts : Option (List String)
  market : Option String
  timeframe : String
  destdir : String
  lineterm : String
  delay : Nat
  startdate : Nat
  enddate : Nat
  skiperr : Bool
  ext : String
  fileformat : String
  append : Option String

/-- Line 95: `append_flag = append is not None and append == 'y'`. -/
def appendFlagOf : Option String → Bool
  | none => false
  | some s => s == "y"

/-- Python truthiness of the optional contracts list (`None` and `[]` are falsy). -/
def truthyList : Option (List String) → Bool
  | none => false
  | some l => !l.isEmpty

/-- Python truthiness of an optional string (`None` and the empty string are falsy). -/
def truthyStr : Option String → Bool
  | none => false
  | some s => !s.isEmpty

/-- Lines 121-136: derive the destination path and the compression mode from
the destination directory, the resolved contract code, the timeframe, the
requested extension and the file format string. -/
def deriveDest (destdir code timeframe ext fileformat : String) : String × Option String :=
  let destpath := destdir ++ "/" ++ code ++ "-" ++ timeframe
  let pc1 : String × Option String :=
    if fileformat = "CSV" then (destpath ++ "." ++ ext, none)
    else if fileformat = "CSVGZ" then (destpath ++ ".csv.gz", some "gzip")
    else (destpath, none)
  let pc2 : String × Option String :=
    if fileformat = "PKL" then (pc1.1 ++ ".pkl", none) else pc1
  if fileformat = "PKLXZ" then (pc2.1 ++ ".pkl.xz", some "xz") else pc2

/-- Remove exact duplicate rows, keeping the first occurrence, having
already seen the rows in `seen` (helper for `dropDuplicates`). -/
def dedupFrom (seen : List Row) : List Row → List Row
  | [] => []
  | r :: rs => if r ∈ seen then dedupFrom seen rs else r :: dedupFrom (r :: seen) rs

/-- pandas `DataFrame.drop_duplicates()` with default arguments: remove
rows that are identical in all fields to an earlier row, keeping the first
occurrence in its position. -/
def dropDuplicates (l : List Row) : List Row :=
  dedupFrom [] l

/-- Lines 171-174: the append-mode merge.  Returns the merged dataset and
the logged net-new count `result_cnt - initial_cnt`. -/
def mergeAppend (dfLocal data : Dataset) : Dataset × Int :=
  let merged := dropDuplicates (dfLocal ++ data)
  (merged, (merged.length : Int) - (dfLocal.length : Int))

/-- Lines 138-148: in append mode, if the destination file exists, take the
start date from the date of its last row and keep the loaded local dataset;
if it does not exist, keep the incoming start date and an empty local
dataset.  `iloc[-1]` on an empty frame raises, modelled as an error. -/
def planStart (appendFlag : Bool) (fs : FS) (destpath : String) (startdate : Nat) :
    Except Outcome (Nat × Dataset) :=
  if appendFlag then
    match lookupFS fs destpath with
    | some dfLocal =>
      match dfLocal.getLast? with
      | some lastRow => Except.ok (lastRow.date, dfLocal)
      | none => Except.error Outcome.dataFrameError
    | none => Except.ok (startdate, [])
  else Except.ok (startdate, [])

/-- The result of processing one contract: either continue the loop with a
(possibly mutated) start date and filesystem, or halt the whole run. -/
inductive StepResult where
  | next (startdate : Nat) (fs : FS)
  | halt (out : Outcome) (fs : FS)
deriving Repr

/-- One iteration of the `for contract_code in contracts` loop
(lines 110-182): lookup, date planning, download, persist, pacing delay.
Returns the events emitted by this iteration and how the loop proceeds.
The start date is threaded through because line 144 assigns the shared
`startdate` variable. -/
def processOne (cfg : Config) (o : Oracle) (appendFlag : Bool) (mfilter : Option String)
    (code : String) (startdate : Nat) (fs : FS) : List Event × StepResult :=
  match o.lookupCode code mfilter with
  | none => ([Event.lookupCall (some code) mfilter], StepResult.halt (Outcome.exitCode 1) fs)
  | some contract =>
    let dest := deriveDest cfg.destdir contract.code cfg.timeframe cfg.ext cfg.fileformat
    match planStart appendFlag fs dest.1 startdate with
    | Except.error out => ([Event.lookupCall (some code) mfilter], StepResult.halt out fs)
    | Except.ok (st, dfLocal) =>
      let evHead := [Event.lookupCall (some code) mfilter,
                     Event.exportCall contract.id st cfg.enddate cfg.timeframe]
      match o.download contract.id st cfg.enddate cfg.timeframe with
      | Except.error _ =>
        if cfg.skiperr then (evHead ++ [Event.errorLogged], StepResult.next st fs)
        else (evHead, StepResult.halt Outcome.exportFailure fs)
      | Except.ok data =>
        let evSleep := if cfg.delay > 0 then [Event.sleep cfg.delay] else []
        if cfg.fileformat.take 3 = "CSV" then
          (evHead ++ [Event.writeFile dest.1 data] ++ evSleep,
           StepResult.next st (insertFS fs dest.1 data))
        else
          let md : Dataset × List Event :=
            if appendFlag then
              let m := mergeAppend dfLocal data
              (m.1, [Event.logAdded m.2 dfLocal.length])
            else (data, [])
          if cfg.fileformat.take 3 = "PKL" then
            (evHead ++ md.2 ++ [Event.writeFile dest.1 md.1] ++ evSleep,
             StepResult.next st (insertFS fs dest.1 md.1))
          else
            (evHead ++ md.2 ++ evSleep, StepResult.next st fs)

/-- The whole contract loop, threading the mutable `startdate` and the
filesystem; returns the run trace, the final filesystem and the outcome. -/
def runLoop (cfg : Config) (o : Oracle) (appendFlag : Bool) (mfilter : Option String) :
    List String → Nat → FS → List Event × FS × Outcome
  | [], _, fs => ([], fs, Outcome.finished)
  | code :: rest, st, fs =>
    match processOne cfg o appendFlag mfilter code st fs with
    | (ev, StepResult.halt out fs2) => (ev, fs2, out)
    | (ev, StepResult.next st2 fs2) =>
      match runLoop cfg o appendFlag mfilter rest st2 fs2 with
      | (ev2, fs3, out) => (ev ++ ev2, fs3, out)

/-- Lines 104-108: when a market is given and no explicit contracts are,
list the codes of the whole market (one lookup call); otherwise keep the
explicit contract list. -/
def contractsPlan (cfg : Config) (o : Oracle) (mfilter : Option String) :
    List Event × List String :=
  match mfilter with
  | some m =>
    if truthyList cfg.contracts = true then ([], cfg.contracts.getD [])
    else ([Event.lookupCall none (some m)], o.marketCodes m)
  | none => ([], cfg.contracts.getD [])

/-- The body of `main` (lines 92-182): validation, market-wide listing when
no explicit contracts are given, then the contract loop. -/
def runMain (cfg : Config) (o : Oracle) (fs0 : FS) : List Event × FS × Outcome :=
  let appendFlag := appendFlagOf cfg.append
  if truthyList cfg.contracts = false ∧ truthyStr cfg.market = false then
    ([], fs0, Outcome.badParameter "Neither contracts nor market is specified")
  else if truthyStr cfg.append = true ∧ cfg.fileformat.take 3 = "CSV" then
    ([], fs0, Outcome.badParameter "Cannot append to csv file")
  else
    let mfilter : Option String := if truthyStr cfg.market = true then cfg.market else none
    let pre := contractsPlan cfg o mfilter
    match runLoop cfg o appendFlag mfilter pre.2 cfg.startdate fs0 with
    | (ev, fs, out) => (pre.1 ++ ev, fs, out)

/-- Discriminator: is an outcome a validation rejection? -/
def Outcome.isBad : Outcome → Bool
  | Outcome.badParameter _ => true
  | _ => false

/-- The pacing discipline of a trace for a configured positive delay:
every written file is immediately followed by a suspension of exactly the
configured number of seconds (also for the last instrument), and every
suspension immediately follows a write, so no suspension follows a skipped
instrument. -/
def wellPaced (d : Nat) : List Event → Bool
  | [] => true
  | Event.writeFile _ _ :: Event.sleep m :: rest =>
    if m = d then wellPaced d rest else false
  | Event.writeFile _ _ :: _ => false
  | Event.sleep _ :: _ => false
  | _ :: rest => wellPaced d rest

/-! ### Concrete sample data used by counterexamples and witnesses -/

/-- A sample row. -/
def rowA : Row := ⟨20200103, ["1.0"]⟩

/-- Another sample row. -/
def rowB : Row := ⟨20200110, ["2.0"]⟩

/-- A base configuration: one explicit contract, binary format, no append. -/
def baseCfg : Config :=
  { contracts := some ["AAA"], market := none, timeframe := "DAILY",
    destdir := "data", lineterm := "\r\n", delay := 0, startdate := 20070101,
    enddate := 20201231, skiperr := true, ext := "csv", fileformat := "PKL",
    append := none }

/-- An oracle that resolves every code (with id 7) and always downloads one row. -/
def oOk : Oracle :=
  { lookupCode := fun c _ => some ⟨7, c, 1⟩,
    marketCodes := fun _ => ["AAA"],
    download := fun _ _ _ _ => Except.ok [rowA] }

/-- An oracle that resolves every code but fails every download. -/
def oFail : Oracle :=
  { lookupCode := fun c _ => some ⟨7, c, 1⟩,
    marketCodes := fun _ => [],
    download := fun _ _ _ _ => Except.error () }

/-- Two-contract append-mode run: AAA then BBB, binary format. -/
def cfgC3 : Config :=
  { baseCfg with contracts := some ["AAA", "BBB"], append := some "y" }

/-- Oracle for the two-contract run: AAA resolves to id 1 and downloads one
row, BBB resolves to id 2 and downloads the same row twice. -/
def oC3 : Oracle :=
  { lookupCode := fun c _ =>
      if c = "AAA" then some ⟨1, "AAA", 5⟩
      else if c = "BBB" then some ⟨2, "BBB", 5⟩
      else none,
    marketCodes := fun _ => [],
    download := fun i _ _ _ => if i = 1 then Except.ok [rowA] else Except.ok [rowB, rowB] }

/-- Initial filesystem: a local file for AAA only, with last date 20200103. -/
def fsC3 : FS := [("data/AAA-DAILY.pkl", [rowA])]

/-- Single-contract append-mode configuration. -/
def cfgAppendOne : Config := { baseCfg with append := some "y" }

/-- A configuration with both an explicit contract list and a market set. -/
def cfgBoth : Config := { baseCfg with market := some "SHARES" }

/-- A configuration with neither contracts nor market set. -/
def cfgNeither : Config := { baseCfg with contracts := none }

/-- Two-contract run with skip-on-error enabled. -/
def cfgSkip : Config := { baseCfg with contracts := some ["AAA", "BBB"], skiperr := true }

/-- Two-contract run with skip-on-error disabled. -/
def cfgStrict : Config := { baseCfg with contracts := some ["AAA", "BBB"], skiperr := false }

/-- CSV-format configuration with append explicitly disabled via `n`. -/
def cfgCsvN : Config := { baseCfg with fileformat := "CSV", append := some "n" }

/-- CSV-format configuration with the append option left unset. -/
def cfgCsvOff : Config := { baseCfg with fileformat := "CSV", append := none }

/-- Configuration with a positive inter-request delay. -/
def cfgDelay : Config := { baseCfg with delay := 2 }

/-! ### Properties of the duplicate-removal pass -/

theorem mem_dedupFrom {a : Row} : ∀ (seen l : List Row),
    a ∈ dedupFrom seen l ↔ a ∈ l ∧ a ∉ seen := by
  intro seen l
  induction l generalizing seen with
  | nil => simp [dedupFrom]
  | cons r rs ih =>
    by_cases hr : r ∈ seen
    · rw [dedupFrom, if_pos hr, ih, List.mem_cons]
      constructor
      · rintro ⟨h1, h2⟩
        exact ⟨Or.inr h1, h2⟩
      · rintro ⟨h1 | h1, h2⟩
        · exact absurd (by rw [h1]; exact hr) h2
        · exact ⟨h1, h2⟩
    · rw [dedupFrom, if_neg hr]
      constructor
      · intro hm
        rcases List.mem_cons.mp hm with h1 | h1
        · exact ⟨List.mem_cons.mpr (Or.inl h1), by rw [h1]; exact hr⟩
        · rcases (ih (r :: seen)).mp h1 with ⟨h2, h3⟩
          exact ⟨List.mem_cons.mpr (Or.inr h2), fun hs => h3 (List.mem_cons_of_mem r hs)⟩
      · rintro ⟨h1, h2⟩
        rcases List.mem_cons.mp h1 with h3 | h3
        · exact List.mem_cons.mpr (Or.inl h3)
        · by_cases he : a = r
          · exact List.mem_cons.mpr (Or.inl he)
          · refine List.mem_cons.mpr (Or.inr ((ih (r :: seen)).mpr ⟨h3, ?_⟩))
            intro hs
            rcases List.mem_cons.mp hs with h4 | h4
            · exact he h4
            · exact h2 h4

theorem nodup_dedupFrom : ∀ (seen l : List Row), (dedupFrom seen l).Nodup := by
  intro seen l
  induction l generalizing seen with
  | nil => simp [dedupFrom]
  | cons r rs ih =>
    by_cases hr : r ∈ seen
    · rw [dedupFrom, if_pos hr]
      exact ih seen
    · rw [dedupFrom, if_neg hr, List.nodup_cons]
      refine ⟨fun hm => ?_, ih (r :: seen)⟩
      exact ((mem_dedupFrom (r :: seen) rs).mp hm).2 (List.mem_cons_self r seen)

theorem length_dedupFrom : ∀ (seen l : List Row), (dedupFrom seen l).length ≤ l.length := by
  intro seen l
  induction l generalizing seen with
  | nil => simp [dedupFrom]
  | cons r rs ih =>
    by_cases hr : r ∈ seen
    · rw [dedupFrom, if_pos hr]
      exact Nat.le_succ_of_le (ih seen)
    · rw [dedupFrom, if_neg hr]
      simpa using ih (r :: seen)

theorem dedupFrom_eq_nil (seen : List Row) : ∀ (l : List Row),
    (∀ a ∈ l, a ∈ seen) → dedupFrom seen l = [] := by
  intro l
  induction l with
  | nil => intro _; rfl
  | cons r rs ih =>
    intro h
    rw [dedupFrom, if_pos (h r (List.mem_cons_self r rs))]
    exact ih fun a ha => h a (List.mem_cons_of_mem r ha)

theorem dedupFrom_append_absorb : ∀ (seen X D : List Row),
    (∀ a ∈ D, a ∈ X ∨ a ∈ seen) → dedupFrom seen (X ++ D) = dedupFrom seen X := by
  intro seen X D
  induction X generalizing seen with
  | nil =>
    intro h
    rw [List.nil_append]
    exact dedupFrom_eq_nil seen D fun a ha => (h a ha).resolve_left (List.not_mem_nil a)
  | cons x X2 ih =>
    intro h
    rw [List.cons_append]
    by_cases hx : x ∈ seen
    · rw [dedupFrom, if_pos hx, dedupFrom, if_pos hx]
      refine ih seen fun a ha => ?_
      rcases h a ha with h1 | h1
      · rcases List.mem_cons.mp h1 with h2 | h2
        · exact Or.inr (by rw [h2]; exact hx)
        · exact Or.inl h2
      · exact Or.inr h1
    · rw [dedupFrom, if_neg hx, dedupFrom, if_neg hx]
      refine congrArg (x :: ·) (ih (x :: seen) fun a ha => ?_)
      rcases h a ha with h1 | h1
      · rcases List.mem_cons.mp h1 with h2 | h2
        · exact Or.inr (by rw [h2]; exact List.mem_cons_self x seen)
        · exact Or.inl h2
      · exact Or.inr (List.mem_cons_of_mem x h1)

theorem dedupFrom_of_nodup : ∀ (seen l : List Row),
    l.Nodup → (∀ a ∈ l, a ∉ seen) → dedupFrom seen l = l := by
  intro seen l
  induction l generalizing seen with
  | nil => intro _ _; rfl
  | cons r rs ih =>
    intro hn hd
    have hr : r ∉ seen := hd r (List.mem_cons_self r rs)
    rw [dedupFrom, if_neg hr]
    refine congrArg (r :: ·) (ih (r :: seen) (List.nodup_cons.mp hn).2 fun a ha => ?_)
    intro hm
    rcases List.mem_cons.mp hm with h1 | h1
    · exact (List.nodup_cons.mp hn).1 (by rwa [h1] at ha)
    · exact hd a (List.mem_cons_of_mem r ha) h1

theorem mem_dropDuplicates {a : Row} (l : List Row) :
    a ∈ dropDuplicates l ↔ a ∈ l := by
  rw [dropDuplicates, mem_dedupFrom]
  simp

theorem nodup_dropDuplicates (l : List Row) : (dropDuplicates l).Nodup :=
  nodup_dedupFrom [] l

theorem length_dropDuplicates (l : List Row) : (dropDuplicates l).length ≤ l.length :=
  length_dedupFrom [] l

theorem dropDuplicates_of_nodup (l : List Row) (h : l.Nodup) : dropDuplicates l = l :=
  dedupFrom_of_nodup [] l h (by simp)

theorem dropDuplicates_merge_again (L D : List Row) :
    dropDuplicates (dropDuplicates (L ++ D) ++ D) = dropDuplicates (L ++ D) := by
  rw [dropDuplicates, dedupFrom_append_absorb [] (dropDuplicates (L ++ D)) D
       (fun a ha => Or.inl ((mem_dropDuplicates (L ++ D)).mpr (List.mem_append_right L ha)))]
  exact dropDuplicates_of_nodup _ (nodup_dropDuplicates (L ++ D))

/-! ### Claim theorems -/

/-- Claim C7: the append-mode merge is idempotent: for every previously
local dataset L and downloaded dataset D, merging D into the result of a
previous merge of L and D (concatenate, then drop exact duplicate rows
keeping the first occurrence) yields a dataset identical to the result of
the first merge, so a repeated append run over identical remote data
rewrites identical file content. -/
theorem merge_idempotent (L D : Dataset) :
    (mergeAppend (mergeAppend L D).1 D).1 = (mergeAppend L D).1 := by
  show dropDuplicates (dropDuplicates (L ++ D) ++ D) = dropDuplicates (L ++ D)
  exact dropDuplicates_merge_again L D

/-- Claim C6: the destination path is a pure function of the code, the
timeframe, the format and the extension: it is `destdir/{code}-{timeframe}`
followed by the suffix of the exhaustive table CSV to `.{extension}` with
no compression, CSVGZ to `.csv.gz` with gzip, PKL to `.pkl` with no
compression, and PKLXZ to `.pkl.xz` with xz. -/
theorem format_policy_table (destdir code timeframe ext : String) :
    deriveDest destdir code timeframe ext "CSV"
      = ((destdir ++ "/" ++ code ++ "-" ++ timeframe) ++ "." ++ ext, none)
    ∧ deriveDest destdir code timeframe ext "CSVGZ"
      = ((destdir ++ "/" ++ code ++ "-" ++ timeframe) ++ ".csv.gz", some "gzip")
    ∧ deriveDest destdir code timeframe ext "PKL"
      = ((destdir ++ "/" ++ code ++ "-" ++ timeframe) ++ ".pkl", none)
    ∧ deriveDest destdir code timeframe ext "PKLXZ"
      = ((destdir ++ "/" ++ code ++ "-" ++ timeframe) ++ ".pkl.xz", some "xz") :=
  ⟨rfl, rfl, rfl, rfl⟩

/-- Claim C1: in binary-format append mode, with the local dataset dfL
obtained by the planner and a freshly downloaded dataset D, the written
result is the concatenation of dfL followed by D with exact full-row
duplicates removed keeping the first occurrence; consequently it contains
no two rows identical in all fields, its row count is at most the sum of
the two counts, and the logged net-new count is the post-dedup row count
minus the local row count. -/
theorem append_persist_merge (cfg : Config) (o : Oracle) (mf : Option String)
    (c : String) (st : Nat) (fs : FS) (ct : Contract) (st2 : Nat) (dfL D : Dataset)
    (hl : o.lookupCode c mf = some ct)
    (hpkl : cfg.fileformat.take 3 = "PKL")
    (hplan : planStart true fs
        (deriveDest cfg.destdir ct.code cfg.timeframe cfg.ext cfg.fileformat).1 st
      = Except.ok (st2, dfL))
    (hdl : o.download ct.id st2 cfg.enddate cfg.timeframe = Except.ok D) :
    processOne cfg o true mf c st fs =
      ([Event.lookupCall (some c) mf,
        Event.exportCall ct.id st2 cfg.enddate cfg.timeframe,
        Event.logAdded (((dropDuplicates (dfL ++ D)).length : Int) - (dfL.length : Int))
          dfL.length,
        Event.writeFile (deriveDest cfg.destdir ct.code cfg.timeframe cfg.ext cfg.fileformat).1
          (dropDuplicates (dfL ++ D))]
        ++ (if cfg.delay > 0 then [Event.sleep cfg.delay] else []),
       StepResult.next st2
         (insertFS fs (deriveDest cfg.destdir ct.code cfg.timeframe cfg.ext cfg.fileformat).1
           (dropDuplicates (dfL ++ D))))
    ∧ (dropDuplicates (dfL ++ D)).Nodup
    ∧ (dropDuplicates (dfL ++ D)).length ≤ dfL.length + D.length := by
  refine ⟨?_, nodup_dropDuplicates _, by simpa using length_dropDuplicates (dfL ++ D)⟩
  have hcsv : ¬ cfg.fileformat.take 3 = "CSV" := by
    rw [hpkl]
    decide
  simp only [processOne, hl, hplan, hdl, mergeAppend, if_neg hcsv, if_pos hpkl, if_true]
  rfl

/-- Claim C1 witness: the theorem applied at a concrete append-mode input
with a one-row local file and a one-row download. -/
theorem append_persist_merge_witness :
    oC3.lookupCode "AAA" none = some ⟨1, "AAA", 5⟩
    ∧ cfgAppendOne.fileformat.take 3 = "PKL"
    ∧ planStart true fsC3
        (deriveDest cfgAppendOne.destdir "AAA" cfgAppendOne.timeframe cfgAppendOne.ext
          cfgAppendOne.fileformat).1 20070101 = Except.ok (20200103, [rowA])
    ∧ oC3.download 1 20200103 cfgAppendOne.enddate cfgAppendOne.timeframe = Except.ok [rowA]
    ∧ (processOne cfgAppendOne oC3 true none "AAA" 20070101 fsC3 =
        ([Event.lookupCall (some "AAA") none,
          Event.exportCall 1 20200103 cfgAppendOne.enddate cfgAppendOne.timeframe,
          Event.logAdded (((dropDuplicates ([rowA] ++ [rowA])).length : Int)
            - (([rowA] : Dataset).length : Int)) ([rowA] : Dataset).length,
          Event.writeFile (deriveDest cfgAppendOne.destdir "AAA" cfgAppendOne.timeframe
            cfgAppendOne.ext cfgAppendOne.fileformat).1 (dropDuplicates ([rowA] ++ [rowA]))]
          ++ (if cfgAppendOne.delay > 0 then [Event.sleep cfgAppendOne.delay] else []),
         StepResult.next 20200103
           (insertFS fsC3 (deriveDest cfgAppendOne.destdir "AAA" cfgAppendOne.timeframe
             cfgAppendOne.ext cfgAppendOne.fileformat).1 (dropDuplicates ([rowA] ++ [rowA]))))
      ∧ (dropDuplicates ([rowA] ++ [rowA])).Nodup
      ∧ (dropDuplicates ([rowA] ++ [rowA])).length
          ≤ ([rowA] : Dataset).length + ([rowA] : Dataset).length) :=
  ⟨rfl, rfl, rfl, rfl,
   append_persist_merge cfgAppendOne oC3 none "AAA" 20070101 fsC3 ⟨1, "AAA", 5⟩ 20200103
     [rowA] [rowA] rfl rfl rfl rfl⟩

/-- Claim C2: for an instrument processed in append mode whose destination
file exists with a last row r, the export request is issued with start date
equal to the date of r and end date equal to the requested end date, which
is never derived from local state. -/
theorem append_start_from_last (cfg : Config) (o : Oracle) (mf : Option String)
    (c : String) (st : Nat) (fs : FS) (ct : Contract) (df : Dataset) (r : Row)
    (hl : o.lookupCode c mf = some ct)
    (hfs : lookupFS fs
        (deriveDest cfg.destdir ct.code cfg.timeframe cfg.ext cfg.fileformat).1 = some df)
    (hlast : df.getLast? = some r) :
    (processOne cfg o true mf c st fs).1.take 2 =
      [Event.lookupCall (some c) mf,
       Event.exportCall ct.id r.date cfg.enddate cfg.timeframe] := by
  have hplan : planStart true fs
      (deriveDest cfg.destdir ct.code cfg.timeframe cfg.ext cfg.fileformat).1 st
      = Except.ok (r.date, df) := by
    simp only [planStart, if_true, hfs, hlast]
  simp only [processOne, hl, hplan]
  cases hdl : o.download ct.id r.date cfg.enddate cfg.timeframe with
  | error e =>
    by_cases hs : cfg.skiperr <;> simp [hs]
  | ok data =>
    by_cases h1 : cfg.fileformat.take 3 = "CSV"
    · simp [h1]
    · by_cases h2 : cfg.fileformat.take 3 = "PKL" <;> simp [h1, h2]

/-- Claim C2 witness: the theorem applied at a concrete input whose local
file ends with the row dated 20200103. -/
theorem append_start_from_last_witness :
    oC3.lookupCode "AAA" none = some ⟨1, "AAA", 5⟩
    ∧ lookupFS fsC3 (deriveDest cfgAppendOne.destdir "AAA" cfgAppendOne.timeframe
        cfgAppendOne.ext cfgAppendOne.fileformat).1 = some [rowA]
    ∧ ([rowA] : Dataset).getLast? = some rowA
    ∧ (processOne cfgAppendOne oC3 true none "AAA" 20070101 fsC3).1.take 2 =
        [Event.lookupCall (some "AAA") none,
         Event.exportCall 1 rowA.date cfgAppendOne.enddate cfgAppendOne.timeframe] :=
  ⟨rfl, rfl, rfl,
   append_start_from_last cfgAppendOne oC3 none "AAA" 20070101 fsC3 ⟨1, "AAA", 5⟩
     [rowA] rowA rfl rfl rfl⟩

/-- Claim C3 at a failing input, evaluated: a two-instrument append run in
which AAA has a local file ending at date 20200103 and BBB has none.  The
shared start-date variable mutated while handling AAA makes the export
request for BBB start at 20200103 instead of the requested 20070101, and
the freshly downloaded duplicate rows of BBB are deduplicated before the
write (its download returns the row twice, the file holds it once), so the
no-local-file behaviour is not equal to non-append mode. -/
theorem append_no_local_file_divergence :
    runMain cfgC3 oC3 fsC3 =
      ([Event.lookupCall (some "AAA") none,
        Event.exportCall 1 20200103 20201231 "DAILY",
        Event.logAdded 0 1,
        Event.writeFile "data/AAA-DAILY.pkl" [rowA],
        Event.lookupCall (some "BBB") none,
        Event.exportCall 2 20200103 20201231 "DAILY",
        Event.logAdded 1 0,
        Event.writeFile "data/BBB-DAILY.pkl" [rowB]],
       [("data/BBB-DAILY.pkl", [rowB]),
        ("data/AAA-DAILY.pkl", [rowA]),
        ("data/AAA-DAILY.pkl", [rowA])],
       Outcome.finished)
    ∧ oC3.download 2 20200103 20201231 "DAILY" = Except.ok [rowB, rowB]
    ∧ cfgC3.startdate = 20070101
    ∧ lookupFS fsC3 "data/BBB-DAILY.pkl" = none :=
  ⟨rfl, rfl, rfl, rfl⟩

/-- Helper: an error produced by the date planner is always the empty-frame
pandas error. -/
theorem planStart_error_eq (af : Bool) (fs : FS) (p : String) (st : Nat) (out : Outcome)
    (h : planStart af fs p st = Except.error out) : out = Outcome.dataFrameError := by
  cases af with
  | false => simp [planStart] at h
  | true =>
    cases hfs : lookupFS fs p with
    | none => simp [planStart, hfs] at h
    | some df =>
      cases hlast : df.getLast? with
      | none =>
        simp only [planStart, if_true, hfs, hlast, Except.error.injEq] at h
        exact h.symm
      | some r => simp [planStart, hfs, hlast] at h

/-- Helper: when one loop iteration halts the run, the outcome is an exit,
a pandas error or an export failure, never a validation rejection. -/
theorem processOne_halt_not_bad (cfg : Config) (o : Oracle) (af : Bool) (mf : Option String)
    (c : String) (st : Nat) (fs : FS) (ev : List Event) (out : Outcome) (fs2 : FS)
    (h : processOne cfg o af mf c st fs = (ev, StepResult.halt out fs2)) :
    out.isBad = false := by
  cases hl : o.lookupCode c mf with
  | none =>
    simp only [processOne, hl, Prod.mk.injEq, StepResult.halt.injEq] at h
    rw [← h.2.1]
    rfl
  | some ct =>
    cases hp : planStart af fs
        (deriveDest cfg.destdir ct.code cfg.timeframe cfg.ext cfg.fileformat).1 st with
    | error out2 =>
      simp only [processOne, hl, hp, Prod.mk.injEq, StepResult.halt.injEq] at h
      rw [← h.2.1, planStart_error_eq af fs _ st out2 hp]
      rfl
    | ok p =>
      obtain ⟨st2, dfL⟩ := p
      cases hdl : o.download ct.id st2 cfg.enddate cfg.timeframe with
      | error e =>
        by_cases hs : cfg.skiperr = true
        · simp [processOne, hl, hp, hdl, hs] at h
        · simp [processOne, hl, hp, hdl, hs] at h
          rw [← h.2.1]
          rfl
      | ok data =>
        by_cases h1 : cfg.fileformat.take 3 = "CSV"
        · simp [processOne, hl, hp, hdl, h1] at h
        · by_cases h2 : cfg.fileformat.take 3 = "PKL" <;>
            simp [processOne, hl, hp, hdl, h1, h2] at h

/-- Helper: the contract loop never produces a validation rejection. -/
theorem runLoop_not_bad (cfg : Config) (o : Oracle) (af : Bool) (mf : Option String) :
    ∀ (l : List String) (st : Nat) (fs : FS),
      ((runLoop cfg o af mf l st fs).2.2).isBad = false := by
  intro l
  induction l with
  | nil => intro st fs; rfl
  | cons c rest ih =>
    intro st fs
    rcases hp : processOne cfg o af mf c st fs with ⟨ev, sr⟩
    cases sr with
    | halt out fs2 =>
      simp only [runLoop, hp]
      exact processOne_halt_not_bad cfg o af mf c st fs ev out fs2 hp
    | next st2 fs2 =>
      have hb := ih st2 fs2
      rcases hr : runLoop cfg o af mf rest st2 fs2 with ⟨ev2, fs3, out⟩
      rw [hr] at hb
      simp only [runLoop, hp, hr]
      exact hb

/-- Claim C4 counterexample: a configuration with both an explicit contract
list and a market filter set is not rejected; the run performs a lookup
(with the market as filter), downloads and writes a file, finishing
normally. -/
theorem both_set_accepted :
    runMain cfgBoth oOk [] =
      ([Event.lookupCall (some "AAA") (some "SHARES"),
        Event.exportCall 7 20070101 20201231 "DAILY",
        Event.writeFile "data/AAA-DAILY.pkl" [rowA]],
       [("data/AAA-DAILY.pkl", [rowA])],
       Outcome.finished) := rfl

/-- Claim C4 (amended): the run is rejected with the mutual-exclusion
validation error, before any network activity, exactly when neither the
explicit contract list nor the market filter is non-empty; any
configuration with at least one of them set — in particular one with both
set — passes that check (the market is then used as a lookup filter for
the listed contracts). -/
theorem neither_set_rejected (cfg : Config) (o : Oracle) (fs0 : FS) :
    (truthyList cfg.contracts = false → truthyStr cfg.market = false →
      runMain cfg o fs0
        = ([], fs0, Outcome.badParameter "Neither contracts nor market is specified"))
    ∧ ((truthyList cfg.contracts = true ∨ truthyStr cfg.market = true) →
      (runMain cfg o fs0).2.2
        ≠ Outcome.badParameter "Neither contracts nor market is specified") := by
  constructor
  · intro h1 h2
    simp [runMain, h1, h2]
  · intro hset heq
    have h4 : ¬(truthyList cfg.contracts = false ∧ truthyStr cfg.market = false) := by
      rcases hset with h | h <;> rw [h] <;> simp
    by_cases h3 : truthyStr cfg.append = true ∧ cfg.fileformat.take 3 = "CSV"
    · rw [runMain, if_neg h4, if_pos h3] at heq
      simp only [Outcome.badParameter.injEq] at heq
      exact absurd heq (by decide)
    · rcases hr : runLoop cfg o (appendFlagOf cfg.append)
          (if truthyStr cfg.market = true then cfg.market else none)
          (contractsPlan cfg o
            (if truthyStr cfg.market = true then cfg.market else none)).2
          cfg.startdate fs0 with ⟨ev, fs, out⟩
      rw [runMain, if_neg h4, if_neg h3] at heq
      simp only [hr] at heq
      have hb := runLoop_not_bad cfg o (appendFlagOf cfg.append)
        (if truthyStr cfg.market = true then cfg.market else none)
        (contractsPlan cfg o
          (if truthyStr cfg.market = true then cfg.market else none)).2
        cfg.startdate fs0
      rw [hr] at hb
      rw [heq] at hb
      simp [Outcome.isBad] at hb

/-- Claim C4 amended witness: the first part applied with neither option
set, the second both with exactly one option set (contracts only) and with
both options set. -/
theorem neither_set_rejected_witness :
    runMain cfgNeither oOk []
      = ([], [], Outcome.badParameter "Neither contracts nor market is specified")
    ∧ (runMain baseCfg oOk []).2.2
      ≠ Outcome.badParameter "Neither contracts nor market is specified"
    ∧ (runMain cfgBoth oOk []).2.2
      ≠ Outcome.badParameter "Neither contracts nor market is specified" :=
  ⟨(neither_set_rejected cfgNeither oOk []).1 rfl rfl,
   (neither_set_rejected baseCfg oOk []).2 (Or.inl rfl),
   (neither_set_rejected cfgBoth oOk []).2 (Or.inl rfl)⟩

/-- Claim C5: when the export call for an instrument fails, then with
skip-on-error enabled the error is logged, no file is written for that
instrument (its events are exactly the lookup, the export call and the
error log, and the filesystem is passed on unchanged) and the loop
continues with the remaining instruments; with skip-on-error disabled the
failure terminates the run immediately with the filesystem unchanged and
no events for the remaining instruments. -/
theorem export_error_policy (cfg : Config) (o : Oracle) (af : Bool) (mf : Option String)
    (c : String) (rest : List String) (st : Nat) (fs : FS) (ct : Contract)
    (st2 : Nat) (dfL : Dataset)
    (hl : o.lookupCode c mf = some ct)
    (hplan : planStart af fs
        (deriveDest cfg.destdir ct.code cfg.timeframe cfg.ext cfg.fileformat).1 st
      = Except.ok (st2, dfL))
    (hdl : o.download ct.id st2 cfg.enddate cfg.timeframe = Except.error ()) :
    (cfg.skiperr = true →
      runLoop cfg o af mf (c :: rest) st fs =
        ([Event.lookupCall (some c) mf,
          Event.exportCall ct.id st2 cfg.enddate cfg.timeframe,
          Event.errorLogged] ++ (runLoop cfg o af mf rest st2 fs).1,
         (runLoop cfg o af mf rest st2 fs).2.1,
         (runLoop cfg o af mf rest st2 fs).2.2))
    ∧ (cfg.skiperr = false →
      runLoop cfg o af mf (c :: rest) st fs =
        ([Event.lookupCall (some c) mf,
          Event.exportCall ct.id st2 cfg.enddate cfg.timeframe],
         fs, Outcome.exportFailure)) := by
  constructor
  · intro hs
    rcases hr : runLoop cfg o af mf rest st2 fs with ⟨ev2, fs3, out⟩
    simp [runLoop, processOne, hl, hplan, hdl, hs, hr]
  · intro hs
    simp [runLoop, processOne, hl, hplan, hdl, hs]

/-- Claim C5 witness: the first part applied to a two-contract run with
skip-on-error enabled, the second to the same run with it disabled; the
oracle fails every download. -/
theorem export_error_policy_witness :
    (runLoop cfgSkip oFail false none ["AAA", "BBB"] 20070101 [] =
      ([Event.lookupCall (some "AAA") none,
        Event.exportCall 7 20070101 20201231 "DAILY",
        Event.errorLogged] ++ (runLoop cfgSkip oFail false none ["BBB"] 20070101 []).1,
       (runLoop cfgSkip oFail false none ["BBB"] 20070101 []).2.1,
       (runLoop cfgSkip oFail false none ["BBB"] 20070101 []).2.2))
    ∧ (runLoop cfgStrict oFail false none ["AAA", "BBB"] 20070101 [] =
      ([Event.lookupCall (some "AAA") none,
        Event.exportCall 7 20070101 20201231 "DAILY"],
       [], Outcome.exportFailure)) :=
  ⟨(export_error_policy cfgSkip oFail false none "AAA" ["BBB"] 20070101 []
      ⟨7, "AAA", 1⟩ 20070101 [] rfl rfl rfl).1 rfl,
   (export_error_policy cfgStrict oFail false none "AAA" ["BBB"] 20070101 []
      ⟨7, "AAA", 1⟩ 20070101 [] rfl rfl rfl).2 rfl⟩

/-- Claim C9: for a CSV-family format, supplying the append option at all
(also as the explicit `n`) makes the run fail validation with the message
`Cannot append to csv file` before any network call, because the check
tests whether the option was provided rather than whether append mode is
enabled; only leaving the option unset lets a CSV-family run pass
validation (no rejection of any kind is then produced). -/
theorem csv_append_check (cfg : Config) (o : Oracle) (fs0 : FS)
    (hset : truthyList cfg.contracts = true ∨ truthyStr cfg.market = true)
    (hcsv : cfg.fileformat.take 3 = "CSV") :
    (truthyStr cfg.append = true →
      runMain cfg o fs0 = ([], fs0, Outcome.badParameter "Cannot append to csv file"))
    ∧ (cfg.append = none →
      ∀ msg, (runMain cfg o fs0).2.2 ≠ Outcome.badParameter msg) := by
  have h4 : ¬(truthyList cfg.contracts = false ∧ truthyStr cfg.market = false) := by
    rcases hset with h | h <;> rw [h] <;> simp
  constructor
  · intro ha
    rw [runMain, if_neg h4, if_pos ⟨ha, hcsv⟩]
  · intro ha msg heq
    have h3 : ¬(truthyStr cfg.append = true ∧ cfg.fileformat.take 3 = "CSV") := by
      rw [ha]
      simp [truthyStr]
    rcases hr : runLoop cfg o (appendFlagOf cfg.append)
        (if truthyStr cfg.market = true then cfg.market else none)
        (contractsPlan cfg o
          (if truthyStr cfg.market = true then cfg.market else none)).2
        cfg.startdate fs0 with ⟨ev, fs, out⟩
    rw [runMain, if_neg h4, if_neg h3] at heq
    simp only [hr] at heq
    have hb := runLoop_not_bad cfg o (appendFlagOf cfg.append)
      (if truthyStr cfg.market = true then cfg.market else none)
      (contractsPlan cfg o
        (if truthyStr cfg.market = true then cfg.market else none)).2
      cfg.startdate fs0
    rw [hr] at hb
    rw [heq] at hb
    simp [Outcome.isBad] at hb

/-- Claim C9 witness: a CSV run with append explicitly set to `n` is
rejected, and the same run with the append option unset passes validation. -/
theorem csv_append_check_witness :
    runMain cfgCsvN oOk []
      = ([], [], Outcome.badParameter "Cannot append to csv file")
    ∧ (runMain cfgCsvOff oOk []).2.2
      ≠ Outcome.badParameter "Cannot append to csv file" :=
  ⟨(csv_append_check cfgCsvN oOk [] (Or.inl rfl) rfl).1 rfl,
   (csv_append_check cfgCsvOff oOk [] (Or.inl rfl) rfl).2 rfl
     "Cannot append to csv file"⟩

/-! ### Pacing helper lemmas -/

theorem wellPaced_lookup (d : Nat) (c m : Option String) (l : List Event) :
    wellPaced d (Event.lookupCall c m :: l) = wellPaced d l := rfl

theorem wellPaced_export (d i s e : Nat) (tf : String) (l : List Event) :
    wellPaced d (Event.exportCall i s e tf :: l) = wellPaced d l := rfl

theorem wellPaced_logAdded (d : Nat) (n : Int) (k : Nat) (l : List Event) :
    wellPaced d (Event.logAdded n k :: l) = wellPaced d l := rfl

theorem wellPaced_errorLogged (d : Nat) (l : List Event) :
    wellPaced d (Event.errorLogged :: l) = wellPaced d l := rfl

theorem wellPaced_write_sleep (d : Nat) (p : String) (x : Dataset) (l : List Event) :
    wellPaced d (Event.writeFile p x :: Event.sleep d :: l) = wellPaced d l := by
  simp [wellPaced]

theorem processOne_no_sleep (cfg : Config) (o : Oracle) (af : Bool) (mf : Option String)
    (c : String) (st : Nat) (fs : FS) (h0 : cfg.delay = 0) (n : Nat) :
    Event.sleep n ∉ (processOne cfg o af mf c st fs).1 := by
  have hneg : ¬ cfg.delay > 0 := by
    rw [h0]
    simp
  cases hl : o.lookupCode c mf with
  | none => simp [processOne, hl]
  | some ct =>
    cases hp : planStart af fs
        (deriveDest cfg.destdir ct.code cfg.timeframe cfg.ext cfg.fileformat).1 st with
    | error out => simp [processOne, hl, hp]
    | ok p =>
      obtain ⟨st2, dfL⟩ := p
      cases hdl : o.download ct.id st2 cfg.enddate cfg.timeframe with
      | error e =>
        by_cases hs : cfg.skiperr = true <;> simp [processOne, hl, hp, hdl, hs]
      | ok data =>
        by_cases h1 : cfg.fileformat.take 3 = "CSV"
        · simp [processOne, hl, hp, hdl, h1, hneg]
        · by_cases h2 : cfg.fileformat.take 3 = "PKL" <;>
            cases af <;>
            simp [processOne, hl, hp, hdl, h1, h2, hneg]

theorem processOne_wellPaced (cfg : Config) (o : Oracle) (af : Bool) (mf : Option String)
    (c : String) (st : Nat) (fs : FS) (t : List Event)
    (hdpos : 0 < cfg.delay)
    (hf : cfg.fileformat.take 3 = "CSV" ∨ cfg.fileformat.take 3 = "PKL") :
    wellPaced cfg.delay ((processOne cfg o af mf c st fs).1 ++ t)
      = wellPaced cfg.delay t := by
  cases hl : o.lookupCode c mf with
  | none => simp [processOne, hl, wellPaced_lookup]
  | some ct =>
    cases hp : planStart af fs
        (deriveDest cfg.destdir ct.code cfg.timeframe cfg.ext cfg.fileformat).1 st with
    | error out => simp [processOne, hl, hp, wellPaced_lookup]
    | ok p =>
      obtain ⟨st2, dfL⟩ := p
      cases hdl : o.download ct.id st2 cfg.enddate cfg.timeframe with
      | error e =>
        by_cases hs : cfg.skiperr = true <;>
          simp [processOne, hl, hp, hdl, hs, wellPaced_lookup, wellPaced_export,
            wellPaced_errorLogged]
      | ok data =>
        rcases hf with h1 | h1
        · simp [processOne, hl, hp, hdl, h1, hdpos, wellPaced_lookup, wellPaced_export,
            wellPaced_write_sleep]
        · have hcsv : ¬ cfg.fileformat.take 3 = "CSV" := by
            rw [h1]
            decide
          cases af <;>
            simp [processOne, hl, hp, hdl, h1, hcsv, hdpos, wellPaced_lookup,
              wellPaced_export, wellPaced_logAdded, wellPaced_write_sleep]

theorem runLoop_no_sleep (cfg : Config) (o : Oracle) (af : Bool) (mf : Option String)
    (h0 : cfg.delay = 0) :
    ∀ (l : List String) (st : Nat) (fs : FS) (n : Nat),
      Event.sleep n ∉ (runLoop cfg o af mf l st fs).1 := by
  intro l
  induction l with
  | nil =>
    intro st fs n
    simp [runLoop]
  | cons c rest ih =>
    intro st fs n
    rcases hp : processOne cfg o af mf c st fs with ⟨ev, sr⟩
    have hev : Event.sleep n ∉ ev := by
      have hh := processOne_no_sleep cfg o af mf c st fs h0 n
      simp only [hp] at hh
      exact hh
    cases sr with
    | halt out fs2 =>
      simp only [runLoop, hp]
      exact hev
    | next st2 fs2 =>
      have h2 := ih st2 fs2 n
      rcases hr : runLoop cfg o af mf rest st2 fs2 with ⟨ev2, fs3, out⟩
      simp only [hr] at h2
      simp only [runLoop, hp, hr]
      intro hmem
      rcases List.mem_append.mp hmem with hx | hx
      · exact hev hx
      · exact h2 hx

theorem runLoop_wellPaced (cfg : Config) (o : Oracle) (af : Bool) (mf : Option String)
    (hdpos : 0 < cfg.delay)
    (hf : cfg.fileformat.take 3 = "CSV" ∨ cfg.fileformat.take 3 = "PKL") :
    ∀ (l : List String) (st : Nat) (fs : FS),
      wellPaced cfg.delay (runLoop cfg o af mf l st fs).1 = true := by
  intro l
  induction l with
  | nil => intro st fs; rfl
  | cons c rest ih =>
    intro st fs
    rcases hp : processOne cfg o af mf c st fs with ⟨ev, sr⟩
    cases sr with
    | halt out fs2 =>
      have hw := processOne_wellPaced cfg o af mf c st fs [] hdpos hf
      simp only [hp] at hw
      rw [List.append_nil] at hw
      simp only [runLoop, hp]
      rw [hw]
      rfl
    | next st2 fs2 =>
      rcases hr : runLoop cfg o af mf rest st2 fs2 with ⟨ev2, fs3, out⟩
      have hw := processOne_wellPaced cfg o af mf c st fs ev2 hdpos hf
      simp only [hp] at hw
      have h2 := ih st2 fs2
      simp only [hr] at h2
      simp only [runLoop, hp, hr]
      rw [hw]
      exact h2

theorem contractsPlan_no_sleep (cfg : Config) (o : Oracle) (m : Option String) (n : Nat) :
    Event.sleep n ∉ (contractsPlan cfg o m).1 := by
  cases m with
  | none => simp [contractsPlan]
  | some s => by_cases h : truthyList cfg.contracts = true <;> simp [contractsPlan, h]

theorem contractsPlan_wellPaced (cfg : Config) (o : Oracle) (m : Option String)
    (d : Nat) (t : List Event) :
    wellPaced d ((contractsPlan cfg o m).1 ++ t) = wellPaced d t := by
  cases m with
  | none => rfl
  | some s =>
    by_cases h : truthyList cfg.contracts = true <;>
      simp [contractsPlan, h, wellPaced_lookup]

/-- Claim C10: with a zero delay the run never suspends; with a positive
delay every suspension lasts exactly the configured number of seconds and
immediately follows a file write (so each successfully downloaded and
persisted instrument is followed by a suspension, also the last one), and
every write is immediately followed by a suspension, while skipped
instruments, whose last event is the error log, are never followed by one. -/
theorem pacing_policy (cfg : Config) (o : Oracle) (fs0 : FS)
    (hf : cfg.fileformat.take 3 = "CSV" ∨ cfg.fileformat.take 3 = "PKL") :
    (cfg.delay = 0 → ∀ n, Event.sleep n ∉ (runMain cfg o fs0).1)
    ∧ (0 < cfg.delay → wellPaced cfg.delay (runMain cfg o fs0).1 = true) := by
  constructor
  · intro h0 n
    rw [runMain]
    by_cases h1 : truthyList cfg.contracts = false ∧ truthyStr cfg.market = false
    · rw [if_pos h1]
      simp
    · rw [if_neg h1]
      by_cases h2 : truthyStr cfg.append = true ∧ cfg.fileformat.take 3 = "CSV"
      · rw [if_pos h2]
        simp
      · rw [if_neg h2]
        rcases hr : runLoop cfg o (appendFlagOf cfg.append)
            (if truthyStr cfg.market = true then cfg.market else none)
            (contractsPlan cfg o
              (if truthyStr cfg.market = true then cfg.market else none)).2
            cfg.startdate fs0 with ⟨ev, fs, out⟩
        have h3 := runLoop_no_sleep cfg o (appendFlagOf cfg.append)
          (if truthyStr cfg.market = true then cfg.market else none) h0
          (contractsPlan cfg o
            (if truthyStr cfg.market = true then cfg.market else none)).2
          cfg.startdate fs0 n
        simp only [hr] at h3
        simp only [hr]
        intro hmem
        rcases List.mem_append.mp hmem with hx | hx
        · exact contractsPlan_no_sleep cfg o _ n hx
        · exact h3 hx
  · intro hdpos
    rw [runMain]
    by_cases h1 : truthyList cfg.contracts = false ∧ truthyStr cfg.market = false
    · rw [if_pos h1]
      rfl
    · rw [if_neg h1]
      by_cases h2 : truthyStr cfg.append = true ∧ cfg.fileformat.take 3 = "CSV"
      · rw [if_pos h2]
        rfl
      · rw [if_neg h2]
        rcases hr : runLoop cfg o (appendFlagOf cfg.append)
            (if truthyStr cfg.market = true then cfg.market else none)
            (contractsPlan cfg o
              (if truthyStr cfg.market = true then cfg.market else none)).2
            cfg.startdate fs0 with ⟨ev, fs, out⟩
        have h3 := runLoop_wellPaced cfg o (appendFlagOf cfg.append)
          (if truthyStr cfg.market = true then cfg.market else none) hdpos hf
          (contractsPlan cfg o
            (if truthyStr cfg.market = true then cfg.market else none)).2
          cfg.startdate fs0
        simp only [hr] at h3
        simp only [hr]
        rw [contractsPlan_wellPaced]
        exact h3

/-- Claim C10 witness: with delay zero the concrete run contains no
suspension; with delay two its trace is well paced. -/
theorem pacing_policy_witness :
    (Event.sleep 1 ∉ (runMain baseCfg oOk []).1)
    ∧ wellPaced 2 (runMain cfgDelay oOk []).1 = true :=
  ⟨(pacing_policy baseCfg oOk [] (Or.inr rfl)).1 rfl 1,
   (pacing_policy cfgDelay oOk [] (Or.inr rfl)).2 (by decide)⟩

end FinamDownload
